import Mathlib

/-!
Shallow embedding of the relevance-ranked search subsystem of
`src/index.js` (class `SimpleMemoryServer`).

Strings are modelled as lists of characters (`Str`), JavaScript numbers
as rationals (`ℚ`).  The one place where the source can produce the
float `NaN` — the division `0 / 0` in `similarityRatio` when both
strings are empty — is modelled with `Option ℚ`, `none` standing for
`NaN`.  JavaScript `toLowerCase` performs the Unicode default full case
conversion, under which a code point can lower to more than one code
unit: it is modelled as the concatenation of a per-character mapping
(`jsLowerChar`) that carries the one unconditional one-to-two lowercase
mapping of Unicode, U+0130 → "i" U+0307 — the mapping that lets
`similarityRatio` fall below `0` on non-empty strings.  The
locale-dependent `localeCompare` tie-break is modelled as lexicographic
comparison of character codes (what both the specification and the tool
description call "lexicographic" name order).

The wall-clock field `executionTimeMs` of the result metadata is not
modelled, and neither is the legacy calling convention in which
`searchNodes` receives a bare string and returns only the result array:
all modelled claims concern the options-object mode.

The `try { … } catch { … }` around the regex-based term-frequency count
(src/index.js lines 257-268) is modelled by threading an oracle
`rf : Nat → Bool` through the scorer: `rf i = true` means the regex
construction or matching for the observation at index `i` throws, so the
`catch` branch runs.  The main search path never throws after the
escaping on line 258, which corresponds to instantiating `rf` with
`fun i => false`; theorems quantify over `rf` so they hold for either
behaviour.
-/

namespace MemorySearch

/-- Strings are lists of characters. -/
abbrev Str := List Char

/-- U+0130, LATIN CAPITAL LETTER I WITH DOT ABOVE: the single code point
whose unconditional full lowercase mapping in Unicode has two code
units. -/
def capitalIWithDot : Char := Char.ofNat 0x130

/-- U+0307, COMBINING DOT ABOVE: the second code unit of the lowercase
mapping of U+0130. -/
def combiningDotAbove : Char := Char.ofNat 0x307

/-- Per-code-point lowercase mapping of the Unicode default case
conversion used by JavaScript `toLowerCase`: U+0130 expands to the two
code units "i" U+0307 (SpecialCasing's only unconditional one-to-many
lowercase entry); every other code point maps to a single code unit,
approximated by `Char.toLower` (exact on the ASCII range, which every
concrete instance below stays inside — no theorem depends on which
single code unit a character lowers to, only on the arities).  The
context-sensitive Final_Sigma rule is one-to-one and not modelled. -/
def jsLowerChar (c : Char) : List Char :=
  if c = capitalIWithDot then ['i', combiningDotAbove] else [c.toLower]

/-- JavaScript `String.prototype.toLowerCase`: the concatenation of the
per-code-point lowercase mappings. -/
def toLowerStr (s : Str) : Str := s.flatMap jsLowerChar

/-- Inner recursion for the Levenshtein distance: given `ih = levenshteinDistance s'`,
this computes `levenshteinDistance (a :: s')` by structural recursion on the
second string.  It is exactly the recurrence that the dynamic-programming
matrix of the source's `levenshteinDistance` (src/index.js lines 160-187)
satisfies: keep the diagonal entry on equal characters, otherwise
`1 + min` of substitution, insertion and deletion. -/
def levAux (a : Char) (s' : Str) (ih : Str → Nat) : Str → Nat
  | [] => s'.length + 1
  | b :: t' =>
    if a = b then ih t'
    else 1 + min (ih t') (min (levAux a s' ih t') (ih (b :: t')))

/-- Levenshtein distance, the source's `levenshteinDistance`
(src/index.js lines 160-187). -/
def levenshteinDistance : Str → Str → Nat
  | [], t => t.length
  | a :: s', t => levAux a s' (levenshteinDistance s') t

/-- The source's `similarityRatio` (src/index.js lines 189-194):
`1 - levenshtein(lower str1, lower str2) / max (len str1) (len str2)`.
When both strings are empty the source divides `0 / 0`, producing the
float `NaN`; that case is represented by `none`. -/
def similarityRatioFn (str1 str2 : Str) : Option ℚ :=
  let distance := levenshteinDistance (toLowerStr str1) (toLowerStr str2)
  let maxLength := max str1.length str2.length
  if maxLength = 0 then none
  else some (1 - (distance : ℚ) / (maxLength : ℚ))

/-- JavaScript `String.prototype.includes`: contiguous substring test. -/
def isSubstring (q : Str) : Str → Bool
  | [] => q.isEmpty
  | c :: s => q.isPrefixOf (c :: s) || isSubstring q s

/-- JavaScript `String.prototype.indexOf` for a substring: position of the
first occurrence, `none` when absent (the source only reads it when
`includes` succeeded). -/
def indexOfSub (q : Str) : Str → Option Nat
  | [] => if q.isEmpty then some 0 else none
  | c :: s => if q.isPrefixOf (c :: s) then some 0 else (indexOfSub q s).map (· + 1)

/-- Auxiliary scan for `countOcc`: advances past each non-overlapping match,
exactly as a global JavaScript regex does. -/
def countOccAux (q : Str) (s : Str) : Nat :=
  match s with
  | [] => 0
  | c :: s' =>
    if q.isPrefixOf (c :: s') then 1 + countOccAux q (s'.drop (q.length - 1))
    else countOccAux q s'
termination_by s.length
decreasing_by
  all_goals simp only [List.length_drop, List.length_cons]
  all_goals omega

/-- Number of non-overlapping occurrences of `q` in `s`, as counted by the
source's global regex match on the escaped query (the escaping on
src/index.js line 258 makes the pattern a literal); an empty pattern
matches at every position, giving `length + 1` as in JavaScript. -/
def countOcc (q s : Str) : Nat :=
  if q.isEmpty then s.length + 1 else countOccAux q s

/-- Entity of the store: `{ name, entityType, observations }`
(spec §3, src/index.js lines 62-69). -/
structure Entity where
  name : Str
  entityType : Str
  observations : List Str
deriving DecidableEq

/-- Searchable field categories. -/
inductive Field where
  | name
  | entityType
  | observations
deriving DecidableEq

/-- Match provenance of a search result. -/
inductive MatchType where
  | exact
  | fuzzy
deriving DecidableEq

/-- Highlight data of the scorer: the matched query per text field and the
matched observation indices. -/
structure Highlights where
  hName : List Str
  hEntityType : List Str
  hObservations : List Nat
deriving DecidableEq

/-- The `_searchMeta` object built by `calculateRelevanceScore` and
extended by `performFuzzySearch` (`fuzzyMatch`, `similarity`, `bestField`
are absent on exact matches, modelled by `false` / `none`). -/
structure MatchMeta where
  score : ℚ
  matchedFields : List Field
  highlights : Highlights
  matchType : MatchType
  fuzzyMatch : Bool
  similarity : Option ℚ
  bestField : Option Field
deriving DecidableEq

/-- A search result: the entity spread together with its `_searchMeta`. -/
structure SearchResult where
  entity : Entity
  meta : MatchMeta
deriving DecidableEq

/-- The options object of `searchNodes` with its defaulted fields resolved
(src/index.js lines 332-339). -/
structure SearchOptions where
  query : Str
  fields : List Field
  limit : Nat
  minScore : ℚ
  fuzzy : Bool
  fuzzyThreshold : ℚ
deriving DecidableEq

/-- Result metadata (src/index.js lines 406-416); `executionTimeMs` is
wall-clock time and is not modelled. -/
structure SearchMetadata where
  totalMatches : Nat
  returnedCount : Nat
  query : Str
  fuzzyUsed : Bool
  topScore : ℚ
  averageScore : ℚ
  error : Option Str
deriving DecidableEq

/-- The `{ results, metadata }` response of `searchNodes`. -/
structure SearchResponse where
  results : List SearchResult
  metadata : SearchMetadata
deriving DecidableEq

/-- The source's `getSearchableFields` (src/index.js lines 196-213). -/
def getSearchableFields (e : Entity) (fields : List Field) : List Str :=
  (if fields.contains Field.name then [e.name] else []) ++
  (if fields.contains Field.entityType then [e.entityType] else []) ++
  (if fields.contains Field.observations then e.observations else [])

/-- JavaScript `Array.prototype.join(' ')`. -/
def joinSpace (l : List Str) : Str := List.intercalate [' '] l

/-- Observation scan of `calculateRelevanceScore` (src/index.js lines
249-270): walks the given observations (already capped to the first 100),
stopping once 5 have matched; carries the running score and the matched
indices.  `rf i = true` takes the source's `catch` branch for index `i`,
which raises the running score only to `20`. -/
def obsLoop (rf : Nat → Bool) (qL : Str) :
    Nat → Nat → ℚ → List Nat → List Str → ℚ × List Nat
  | _, _, score, idxs, [] => (score, idxs)
  | i, found, score, idxs, o :: rest =>
    if 5 ≤ found then (score, idxs)
    else if isSubstring qL (toLowerStr o) then
      if rf i then
        obsLoop rf qL (i + 1) (found + 1) (max score 20) (idxs ++ [i]) rest
      else
        obsLoop rf qL (i + 1) (found + 1)
          (max score (20 + min 30 ((countOcc qL (toLowerStr o) : ℚ) * 10)))
          (idxs ++ [i]) rest
    else obsLoop rf qL (i + 1) found score idxs rest

/-- The source's `calculateRelevanceScore` (src/index.js lines 215-283):
name criterion, entity-type criterion, observation scan — the highest
applicable criterion wins — then the flat `× 0.8` fuzzy penalty. -/
def calculateRelevanceScore (rf : Nat → Bool) (e : Entity) (query : Str)
    (matchType : MatchType) : MatchMeta :=
  let queryLower := toLowerStr query
  let nameLower := toLowerStr e.name
  let typeLower := toLowerStr e.entityType
  let score1 : ℚ :=
    if nameLower = queryLower then 100
    else if isSubstring queryLower nameLower then
      max 0 (60 + 30 * (1 - ((indexOfSub queryLower nameLower).getD 0 : ℚ) / (e.name.length : ℚ)) *
        ((query.length : ℚ) / (e.name.length : ℚ)))
    else 0
  let nameHit := nameLower = queryLower ∨ isSubstring queryLower nameLower = true
  let score2 : ℚ :=
    if typeLower = queryLower then max score1 85
    else if isSubstring queryLower typeLower then max score1 70
    else score1
  let typeHit := typeLower = queryLower ∨ isSubstring queryLower typeLower = true
  let scan := obsLoop rf queryLower 0 0 score2 [] (e.observations.take 100)
  let finalScore := if matchType = MatchType.fuzzy then scan.1 * (4/5) else scan.1
  { score := finalScore
    matchedFields :=
      (if nameHit then [Field.name] else []) ++
      (if typeHit then [Field.entityType] else []) ++
      (if scan.2 = [] then [] else [Field.observations])
    highlights :=
      { hName := if nameHit then [query] else []
        hEntityType := if typeHit then [query] else []
        hObservations := scan.2 }
    matchType := matchType
    fuzzyMatch := false
    similarity := none
    bestField := none }

/-- The `maxSimilarity` / `bestField` accumulation of `performFuzzySearch`
(src/index.js lines 289-307).  A `none` similarity (the float `NaN`)
fails the JavaScript `>` comparison and leaves the accumulator unchanged,
exactly as `NaN > x` is false. -/
def bestSimilarity (query : Str) (fields : List Field) (e : Entity) : ℚ × Option Field :=
  let p0 : ℚ × Option Field := (0, none)
  let p1 :=
    if fields.contains Field.name then
      match similarityRatioFn query e.name with
      | some r => if p0.1 < r then (r, some Field.name) else p0
      | none => p0
    else p0
  if fields.contains Field.entityType then
    match similarityRatioFn query e.entityType with
    | some r => if p1.1 < r then (r, some Field.entityType) else p1
    | none => p1
  else p1

/-- The source's `performFuzzySearch` (src/index.js lines 285-325):
entities whose best similarity reaches the threshold are scored with
`matchType = fuzzy` and the score is additionally multiplied by the
similarity ratio. -/
def performFuzzySearch (rf : Nat → Bool) (entities : List Entity) (query : Str)
    (fields : List Field) (threshold : ℚ) : List SearchResult :=
  entities.filterMap fun e =>
    let bs := bestSimilarity query fields e
    if threshold ≤ bs.1 then
      let sr := calculateRelevanceScore rf e query MatchType.fuzzy
      some { entity := e
             meta := { sr with score := sr.score * bs.1
                               fuzzyMatch := true
                               similarity := some bs.1
                               bestField := bs.2 } }
    else none

/-- Characters treated as white space by JavaScript `String.prototype.trim`. -/
def jsWhitespace (c : Char) : Bool :=
  c.toNat == 9 || c.toNat == 10 || c.toNat == 11 || c.toNat == 12 ||
  c.toNat == 13 || c.toNat == 32 || c.toNat == 160 || c.toNat == 0x1680 ||
  (0x2000 ≤ c.toNat && c.toNat ≤ 0x200a) || c.toNat == 0x2028 ||
  c.toNat == 0x2029 || c.toNat == 0x202f || c.toNat == 0x205f ||
  c.toNat == 0x3000 || c.toNat == 0xfeff

/-- JavaScript `String.prototype.trim`. -/
def jsTrim (s : Str) : Str :=
  ((s.dropWhile jsWhitespace).reverse.dropWhile jsWhitespace).reverse

/-- Query truncation of `searchNodes` (src/index.js line 359). -/
def truncateQuery (q : Str) : Str :=
  if 1000 < q.length then q.take 1000 else q

/-- The exact pass of `searchNodes` (src/index.js lines 364-379): for each
entity, join the requested fields with spaces, lower-case, test substring
containment, score, and keep results reaching `minScore`. -/
def exactPass (rf : Nat → Bool) (entities : List Entity) (queryT : Str)
    (fields : List Field) (minScore : ℚ) : List SearchResult :=
  let qL := toLowerStr queryT
  entities.filterMap fun e =>
    if isSubstring qL (toLowerStr (joinSpace (getSearchableFields e fields))) then
      let sr := calculateRelevanceScore rf e queryT MatchType.exact
      if minScore ≤ sr.score then some { entity := e, meta := sr } else none
    else none

/-- Fuzzy-result merge of `searchNodes` (src/index.js lines 384-391):
append each fuzzy match whose name is not already present and whose score
reaches `minScore`. -/
def mergeFuzzy (exact fuzzyList : List SearchResult) (minScore : ℚ) : List SearchResult :=
  fuzzyList.foldl
    (fun acc fm =>
      if (acc.find? fun r => r.entity.name = fm.entity.name).isSome then acc
      else if minScore ≤ fm.meta.score then acc ++ [fm]
      else acc)
    exact

/-- Lexicographic comparison of strings by character code, the model of the
name tie-break (`localeCompare`, src/index.js line 398). -/
def strLE : Str → Str → Bool
  | [], _ => true
  | _ :: _, [] => false
  | a :: s, b :: t =>
    if a.toNat < b.toNat then true
    else if b.toNat < a.toNat then false
    else strLE s t

/-- Result order of the sort comparator (src/index.js lines 395-399):
score descending, ties broken by name ascending. -/
def resultLE (a b : SearchResult) : Bool :=
  decide (b.meta.score < a.meta.score) ||
    (decide (a.meta.score = b.meta.score) && strLE a.entity.name b.entity.name)

/-- Stable insertion of a result into a sorted list: `a` goes before the
first element it compares `resultLE` to. -/
def insertR (a : SearchResult) : List SearchResult → List SearchResult
  | [] => [a]
  | b :: l => if resultLE a b then a :: b :: l else b :: insertR a l

/-- Stable sort by `resultLE`.  The source sorts with the stable
`Array.prototype.sort` under the comparator of lines 395-399; a stable
insertion sort under the same total preorder produces the identical
list. -/
def sortResults : List SearchResult → List SearchResult
  | [] => []
  | a :: l => insertR a (sortResults l)

/-- The merged, pre-sort, pre-truncation working set of `searchNodes`
(src/index.js lines 362-392): the exact pass, extended by the deduplicated
fuzzy matches when fuzzy is enabled and the exact pass found fewer than 5
results. -/
def mergedResults (rf : Nat → Bool) (store : List Entity) (opts : SearchOptions) :
    List SearchResult :=
  let qT := truncateQuery opts.query
  let exact := exactPass rf store qT opts.fields opts.minScore
  if opts.fuzzy = true ∧ exact.length < 5 then
    mergeFuzzy exact (performFuzzySearch rf store qT opts.fields opts.fuzzyThreshold)
      opts.minScore
  else exact

/-- The source's `searchNodes` in options-object mode (src/index.js lines
327-424): validation, exact pass, conditional fuzzy pass, merge, sort,
truncation to `limit`, and metadata. -/
def searchNodes (rf : Nat → Bool) (store : List Entity) (opts : SearchOptions) :
    SearchResponse :=
  if jsTrim opts.query = [] then
    { results := []
      metadata :=
        { totalMatches := 0
          returnedCount := 0
          query := opts.query
          fuzzyUsed := false
          topScore := 0
          averageScore := 0
          error := some ("Query cannot be empty".data) } }
  else
    let sorted := sortResults (mergedResults rf store opts)
    let limited := sorted.take opts.limit
    { results := limited
      metadata :=
        { totalMatches := sorted.length
          returnedCount := limited.length
          query := truncateQuery opts.query
          fuzzyUsed := opts.fuzzy && sorted.any fun r => r.meta.matchType == MatchType.fuzzy
          topScore := match limited with | [] => 0 | r :: _ => r.meta.score
          averageScore :=
            match limited with
            | [] => 0
            | _ => (limited.map fun r => r.meta.score).sum / (limited.length : ℚ)
          error := none } }

/-! ## Concrete instances used by counterexamples and witnesses -/

/-- Failure oracle of the benign run: the regex never throws (the escaped
pattern of src/index.js line 258 is always a valid literal regex). -/
def rfNone : Nat → Bool := fun _ => false

/-- Failure oracle of the degraded run: the regex throws on every
observation, so the `catch` branch always runs. -/
def rfAll : Nat → Bool := fun _ => true

/-- The default field set of `searchNodes`. -/
def allFields : List Field := [Field.name, Field.entityType, Field.observations]

/-- The query string "alpha". -/
def qA : Str := ['a', 'l', 'p', 'h', 'a']

/-- Entity "alpha" of type "t" with no observations. -/
def entA : Entity := { name := ['a', 'l', 'p', 'h', 'a'], entityType := ['t'], observations := [] }

/-- Entity "alphb" of type "t": one substitution away from "alpha" and not
containing it. -/
def entB : Entity := { name := ['a', 'l', 'p', 'h', 'b'], entityType := ['t'], observations := [] }

/-- Exact-match metadata of `entA` against the query "alpha". -/
def metaA : MatchMeta :=
  { score := 100, matchedFields := [Field.name]
    highlights := { hName := [qA], hEntityType := [], hObservations := [] }
    matchType := MatchType.exact, fuzzyMatch := false, similarity := none, bestField := none }

/-- Fuzzy metadata of `entA` against "alpha": similarity `1`, score
`100 × 0.8 × 1 = 80`. -/
def metaAf : MatchMeta :=
  { score := 80, matchedFields := [Field.name]
    highlights := { hName := [qA], hEntityType := [], hObservations := [] }
    matchType := MatchType.fuzzy, fuzzyMatch := true, similarity := some 1
    bestField := some Field.name }

/-- Fuzzy metadata of `entB` against "alpha": similarity `4/5`, no scoring
criterion fires, so the score is `0`. -/
def metaBf : MatchMeta :=
  { score := 0, matchedFields := []
    highlights := { hName := [], hEntityType := [], hObservations := [] }
    matchType := MatchType.fuzzy, fuzzyMatch := true, similarity := some (4/5)
    bestField := some Field.name }

/-- Exact search result for `entA`. -/
def resA : SearchResult := { entity := entA, meta := metaA }

/-- Fuzzy search result for `entA` (deduplicated away during the merge). -/
def resAf : SearchResult := { entity := entA, meta := metaAf }

/-- Fuzzy search result for `entB`. -/
def resBf : SearchResult := { entity := entB, meta := metaBf }

/-- Options of the C1 counterexample: query "alpha", `limit 1`, defaults
otherwise. -/
def optsC1 : SearchOptions :=
  { query := qA, fields := allFields, limit := 1, minScore := 0,
    fuzzy := true, fuzzyThreshold := 7/10 }

/-- Options with query "alpha" and all defaults (`limit 50`). -/
def optsC2 : SearchOptions :=
  { query := qA, fields := allFields, limit := 50, minScore := 0,
    fuzzy := true, fuzzyThreshold := 7/10 }

/-- Two entities of type "t" with distinct names for the sorting witness. -/
def storeC3 : List Entity :=
  [{ name := ['a'], entityType := ['t'], observations := [] },
   { name := ['b'], entityType := ['t'], observations := [] }]

/-- Options of the sorting witness: query "t", fuzzy disabled. -/
def optsC3 : SearchOptions :=
  { query := ['t'], fields := allFields, limit := 50, minScore := 0,
    fuzzy := false, fuzzyThreshold := 7/10 }

/-- Options with a whitespace-only query. -/
def optsC5 : SearchOptions :=
  { query := [' '], fields := allFields, limit := 50, minScore := 0,
    fuzzy := true, fuzzyThreshold := 7/10 }

/-- Entity whose only match against the query "q" is its single
observation "q". -/
def entC6 : Entity := { name := ['x'], entityType := ['t'], observations := [['q']] }

/-- Five entities of type "t" whose names avoid the query "t": the exact
pass on the query "t" yields five results. -/
def storeC8 : List Entity :=
  [{ name := ['n', '1'], entityType := ['t'], observations := [] },
   { name := ['n', '2'], entityType := ['t'], observations := [] },
   { name := ['n', '3'], entityType := ['t'], observations := [] },
   { name := ['n', '4'], entityType := ['t'], observations := [] },
   { name := ['n', '5'], entityType := ['t'], observations := [] }]

/-- Options of the C8 witness: query "t", defaults otherwise. -/
def optsC8 : SearchOptions :=
  { query := ['t'], fields := allFields, limit := 50, minScore := 0,
    fuzzy := true, fuzzyThreshold := 7/10 }

/-- Entity named "alpha" whose type "xxxalpha" also contains the query
"alpha" but is only `5/8`-similar to it. -/
def entC10 : Entity :=
  { name := ['a', 'l', 'p', 'h', 'a'],
    entityType := ['x', 'x', 'x', 'a', 'l', 'p', 'h', 'a'], observations := [] }

/-- Options of the C10 example: query "alpha" with `fields` restricted to
the entity type only. -/
def optsC10 : SearchOptions :=
  { query := qA, fields := [Field.entityType], limit := 50, minScore := 0,
    fuzzy := true, fuzzyThreshold := 7/10 }

/-- Metadata the scorer attaches to `entC10` although only `entityType`
was requested: the name criterion fires and wins with `100`. -/
def metaC10 : MatchMeta :=
  { score := 100, matchedFields := [Field.name, Field.entityType]
    highlights := { hName := [qA], hEntityType := [qA], hObservations := [] }
    matchType := MatchType.exact, fuzzyMatch := false, similarity := none, bestField := none }

/-- Search result of the C10 example. -/
def resC10 : SearchResult := { entity := entC10, meta := metaC10 }

/-! ## Basic lemmas about the edit-distance calculator -/

theorem levenshteinDistance_nil_left (t : Str) : levenshteinDistance [] t = t.length := rfl

theorem levenshteinDistance_nil_right (s : Str) : levenshteinDistance s [] = s.length := by
  cases s <;> rfl

theorem levenshteinDistance_cons_cons (a b : Char) (s t : Str) :
    levenshteinDistance (a :: s) (b :: t) =
      if a = b then levenshteinDistance s t
      else 1 + min (levenshteinDistance s t)
        (min (levenshteinDistance (a :: s) t) (levenshteinDistance s (b :: t))) := rfl

theorem levenshteinDistance_self (s : Str) : levenshteinDistance s s = 0 := by
  induction s with
  | nil => rfl
  | cons a s ih => rw [levenshteinDistance_cons_cons]; simp [ih]

theorem levenshteinDistance_le_max_aux :
    ∀ (n : Nat) (s t : Str), s.length + t.length ≤ n →
      levenshteinDistance s t ≤ max s.length t.length := by
  intro n
  induction n with
  | zero =>
    intro s t h
    cases s with
    | nil =>
      cases t with
      | nil => simp [levenshteinDistance_nil_left]
      | cons b t' => simp only [List.length_cons, List.length_nil] at h; omega
    | cons a s' => simp only [List.length_cons] at h; omega
  | succ n ih =>
    intro s t h
    cases s with
    | nil => simp [levenshteinDistance_nil_left]
    | cons a s' =>
      cases t with
      | nil => simp [levenshteinDistance_nil_right]
      | cons b t' =>
        rw [levenshteinDistance_cons_cons]
        by_cases hab : a = b
        · have h1 := ih s' t' (by simp only [List.length_cons] at h; omega)
          rw [if_pos hab]
          simp only [List.length_cons]
          omega
        · have h1 := ih s' t' (by simp only [List.length_cons] at h; omega)
          have hmin : min (levenshteinDistance s' t')
              (min (levenshteinDistance (a :: s') t') (levenshteinDistance s' (b :: t'))) ≤
                levenshteinDistance s' t' := min_le_left _ _
          rw [if_neg hab]
          simp only [List.length_cons]
          omega

theorem levenshteinDistance_le_max (s t : Str) :
    levenshteinDistance s t ≤ max s.length t.length :=
  levenshteinDistance_le_max_aux (s.length + t.length) s t le_rfl

theorem levenshteinDistance_symm_aux :
    ∀ (n : Nat) (s t : Str), s.length + t.length ≤ n →
      levenshteinDistance s t = levenshteinDistance t s := by
  intro n
  induction n with
  | zero =>
    intro s t h
    cases s with
    | nil =>
      cases t with
      | nil => rfl
      | cons b t' => simp only [List.length_cons, List.length_nil] at h; omega
    | cons a s' => simp only [List.length_cons] at h; omega
  | succ n ih =>
    intro s t h
    cases s with
    | nil =>
      cases t with
      | nil => rfl
      | cons b t' => rw [levenshteinDistance_nil_left, levenshteinDistance_nil_right]
    | cons a s' =>
      cases t with
      | nil => rw [levenshteinDistance_nil_left, levenshteinDistance_nil_right]
      | cons b t' =>
        rw [levenshteinDistance_cons_cons, levenshteinDistance_cons_cons]
        have h1 : levenshteinDistance s' t' = levenshteinDistance t' s' :=
          ih s' t' (by simp only [List.length_cons] at h; omega)
        have h2 : levenshteinDistance (a :: s') t' = levenshteinDistance t' (a :: s') :=
          ih (a :: s') t' (by simp only [List.length_cons] at h ⊢; omega)
        have h3 : levenshteinDistance s' (b :: t') = levenshteinDistance (b :: t') s' :=
          ih s' (b :: t') (by simp only [List.length_cons] at h ⊢; omega)
        by_cases hab : a = b
        · subst hab
          rw [if_pos rfl, if_pos rfl, h1]
        · have hba : ¬ b = a := fun hh => hab hh.symm
          rw [if_neg hab, if_neg hba, h1, h2, h3]
          omega

theorem jsLowerChar_length_le (c : Char) : (jsLowerChar c).length ≤ 2 := by
  simp only [jsLowerChar]
  split <;> simp

theorem toLowerStr_length_le (s : Str) : (toLowerStr s).length ≤ 2 * s.length := by
  induction s with
  | nil => simp [toLowerStr]
  | cons c s ih =>
    have hc := jsLowerChar_length_le c
    simp only [toLowerStr] at ih ⊢
    rw [List.flatMap_cons, List.length_append, List.length_cons]
    omega

/-! ## Claim C9 -/

/-- C9: for every pair of strings `a` and `b`,
`levenshteinDistance a b = levenshteinDistance b a`. -/
theorem levenshteinDistance_symm (a b : Str) :
    levenshteinDistance a b = levenshteinDistance b a :=
  levenshteinDistance_symm_aux (a.length + b.length) a b le_rfl

/-! ## Claim C4 -/

/-- C4, counterexample: the claimed interval `[0, 1]` fails twice.  At the
pair of empty strings the source computes `1 - 0 / 0`, the float `NaN`
(`none` in the model), which is not a number in `[0, 1]`; and at the
non-empty pair `("İ", "a")` the lowercase of U+0130 has two code units,
so the source computes `1 - 2 / 1 = -1`, a number outside `[0, 1]`. -/
theorem similarityRatioFn_out_of_range_cex :
    (¬ ∃ q : ℚ, similarityRatioFn [] [] = some q ∧ 0 ≤ q ∧ q ≤ 1) ∧
    similarityRatioFn [capitalIWithDot] ['a'] = some (-1) := by
  constructor
  · simp [similarityRatioFn]
  · have ht : toLowerStr [capitalIWithDot] = ['i', combiningDotAbove] := by decide
    have ht2 : toLowerStr ['a'] = ['a'] := by decide
    have hlev : levenshteinDistance ['i', combiningDotAbove] ['a'] = 2 := by decide
    norm_num [similarityRatioFn, ht, ht2, hlev]

/-- C4, amended: for every pair of strings that are not both empty,
`similarityRatio` returns a number in `[-1, 1]` — the code does not
clamp, and since a code point lowers to at most two code units the value
can reach but not pass `-1` — and it returns `1` on equal arguments;
only the pair of empty strings yields `NaN`. -/
theorem similarityRatioFn_range (a b : Str) (h : ¬ (a = [] ∧ b = [])) :
    ∃ q : ℚ, similarityRatioFn a b = some q ∧ -1 ≤ q ∧ q ≤ 1 ∧ (a = b → q = 1) := by
  have hm : 0 < max a.length b.length := by
    cases a with
    | nil =>
      cases b with
      | nil => exact absurd ⟨rfl, rfl⟩ h
      | cons x xs => simp only [List.length_nil, List.length_cons]; omega
    | cons x xs => simp only [List.length_cons]; omega
  have hd : levenshteinDistance (toLowerStr a) (toLowerStr b) ≤ 2 * max a.length b.length := by
    have h1 := levenshteinDistance_le_max (toLowerStr a) (toLowerStr b)
    have h2 := toLowerStr_length_le a
    have h3 := toLowerStr_length_le b
    omega
  have hmq : (0 : ℚ) < ((max a.length b.length : Nat) : ℚ) := by exact_mod_cast hm
  have hdiv2 : ((levenshteinDistance (toLowerStr a) (toLowerStr b) : Nat) : ℚ) /
      ((max a.length b.length : Nat) : ℚ) ≤ 2 := by
    rw [div_le_iff₀ hmq]
    push_cast
    exact_mod_cast hd
  have hdiv0 : (0 : ℚ) ≤ ((levenshteinDistance (toLowerStr a) (toLowerStr b) : Nat) : ℚ) /
      ((max a.length b.length : Nat) : ℚ) :=
    div_nonneg (by positivity) (le_of_lt hmq)
  refine ⟨1 - ((levenshteinDistance (toLowerStr a) (toLowerStr b) : Nat) : ℚ) /
      ((max a.length b.length : Nat) : ℚ), ?_, by linarith, by linarith, ?_⟩
  · simp only [similarityRatioFn]
    rw [if_neg (by omega)]
  · intro hab
    subst hab
    rw [levenshteinDistance_self]
    simp

/-- C4, witness: the amended statement instantiated at the pair
`("a", "a")`. -/
theorem similarityRatioFn_range_witness :
    ∃ q : ℚ, similarityRatioFn ['a'] ['a'] = some q ∧ -1 ≤ q ∧ q ≤ 1 ∧
      ((['a'] : Str) = ['a'] → q = 1) :=
  similarityRatioFn_range ['a'] ['a'] (by simp)

/-! ## Lemmas about the result order and the stable sort -/

theorem strLE_total (s t : Str) : strLE s t = true ∨ strLE t s = true := by
  induction s generalizing t with
  | nil => left; rfl
  | cons a s ih =>
    cases t with
    | nil => right; rfl
    | cons b t =>
      simp only [strLE]
      rcases Nat.lt_trichotomy a.toNat b.toNat with h | h | h
      · left; rw [if_pos h]
      · rcases ih t with h2 | h2
        · left; rw [if_neg (by omega), if_neg (by omega)]; exact h2
        · right; rw [if_neg (by omega), if_neg (by omega)]; exact h2
      · right; rw [if_pos h]

theorem strLE_trans {s t u : Str} (h1 : strLE s t = true) (h2 : strLE t u = true) :
    strLE s u = true := by
  induction s generalizing t u with
  | nil => rfl
  | cons a s ih =>
    cases t with
    | nil => simp [strLE] at h1
    | cons b t =>
      cases u with
      | nil => simp [strLE] at h2
      | cons c u =>
        simp only [strLE] at h1 h2 ⊢
        by_cases hab : a.toNat < b.toNat
        · by_cases hbc : b.toNat < c.toNat
          · rw [if_pos (by omega)]
          · by_cases hcb : c.toNat < b.toNat
            · rw [if_neg hbc, if_pos hcb] at h2
              exact absurd h2 (by simp)
            · rw [if_pos (by omega : a.toNat < c.toNat)]
        · by_cases hba : b.toNat < a.toNat
          · rw [if_neg hab, if_pos hba] at h1
            exact absurd h1 (by simp)
          · rw [if_neg hab, if_neg hba] at h1
            by_cases hbc : b.toNat < c.toNat
            · rw [if_pos (by omega)]
            · by_cases hcb : c.toNat < b.toNat
              · rw [if_neg hbc, if_pos hcb] at h2
                exact absurd h2 (by simp)
              · rw [if_neg hbc, if_neg hcb] at h2
                rw [if_neg (by omega), if_neg (by omega)]
                exact ih h1 h2

theorem resultLE_iff {x y : SearchResult} :
    resultLE x y = true ↔
      (y.meta.score < x.meta.score ∨
        (x.meta.score = y.meta.score ∧ strLE x.entity.name y.entity.name = true)) := by
  simp [resultLE]

theorem resultLE_total (a b : SearchResult) : resultLE a b = true ∨ resultLE b a = true := by
  rw [resultLE_iff, resultLE_iff]
  rcases lt_trichotomy a.meta.score b.meta.score with h | h | h
  · right; left; exact h
  · rcases strLE_total a.entity.name b.entity.name with h2 | h2
    · left; right; exact ⟨h, h2⟩
    · right; right; exact ⟨h.symm, h2⟩
  · left; left; exact h

theorem resultLE_trans {a b c : SearchResult} (h1 : resultLE a b = true)
    (h2 : resultLE b c = true) : resultLE a c = true := by
  rw [resultLE_iff] at h1 h2 ⊢
  rcases h1 with h1 | ⟨h1e, h1s⟩
  · rcases h2 with h2 | ⟨h2e, h2s⟩
    · left; exact lt_trans h2 h1
    · left; exact h2e ▸ h1
  · rcases h2 with h2 | ⟨h2e, h2s⟩
    · left; rw [h1e]; exact h2
    · right; exact ⟨h1e.trans h2e, strLE_trans h1s h2s⟩

theorem mem_insertR {r a : SearchResult} {l : List SearchResult} :
    r ∈ insertR a l ↔ r = a ∨ r ∈ l := by
  induction l with
  | nil => simp [insertR]
  | cons b l ih =>
    simp only [insertR]
    by_cases h : resultLE a b = true
    · rw [if_pos h]
      simp only [List.mem_cons]
    · rw [if_neg h]
      simp only [List.mem_cons, ih]
      tauto

theorem pairwise_insertR {a : SearchResult} {l : List SearchResult}
    (hl : l.Pairwise (fun x y => resultLE x y = true)) :
    (insertR a l).Pairwise (fun x y => resultLE x y = true) := by
  induction l with
  | nil => simp [insertR]
  | cons b l ih =>
    rcases List.pairwise_cons.mp hl with ⟨hb, hl2⟩
    by_cases h : resultLE a b = true
    · rw [insertR, if_pos h]
      refine List.pairwise_cons.mpr ⟨?_, hl⟩
      intro x hx
      rcases List.mem_cons.mp hx with rfl | hx
      · exact h
      · exact resultLE_trans h (hb x hx)
    · rw [insertR, if_neg h]
      refine List.pairwise_cons.mpr ⟨?_, ih hl2⟩
      intro x hx
      rcases mem_insertR.mp hx with rfl | hx
      · rcases resultLE_total x b with h2 | h2
        · exact absurd h2 h
        · exact h2
      · exact hb x hx

theorem sortResults_pairwise (l : List SearchResult) :
    (sortResults l).Pairwise (fun x y => resultLE x y = true) := by
  induction l with
  | nil => simp [sortResults]
  | cons a l ih => exact pairwise_insertR ih

theorem mem_sortResults {r : SearchResult} {l : List SearchResult} :
    r ∈ sortResults l ↔ r ∈ l := by
  induction l with
  | nil => simp [sortResults]
  | cons a l ih =>
    simp only [sortResults, mem_insertR, ih, List.mem_cons]

/-! ## Claim C3 -/

/-- C3: the returned result sequence is sorted by score descending with
ties broken by name ascending (lexicographic), and in particular every
result's score dominates its successor's score. -/
theorem results_sorted (rf : Nat → Bool) (store : List Entity) (opts : SearchOptions) :
    (searchNodes rf store opts).results.Pairwise (fun x y =>
      y.meta.score < x.meta.score ∨
        (x.meta.score = y.meta.score ∧ strLE x.entity.name y.entity.name = true)) ∧
    ∀ i (h : i + 1 < (searchNodes rf store opts).results.length),
      ((searchNodes rf store opts).results.get ⟨i + 1, h⟩).meta.score ≤
        ((searchNodes rf store opts).results.get ⟨i, by omega⟩).meta.score := by
  have hp : (searchNodes rf store opts).results.Pairwise (fun x y => resultLE x y = true) := by
    unfold searchNodes
    by_cases ht : jsTrim opts.query = []
    · rw [if_pos ht]; simp
    · rw [if_neg ht]
      exact (sortResults_pairwise _).sublist (List.take_sublist _ _)
  refine ⟨hp.imp (fun h => resultLE_iff.mp h), ?_⟩
  intro i h
  have h2 := List.pairwise_iff_get.mp hp ⟨i, by omega⟩ ⟨i + 1, h⟩ (by simp)
  rw [resultLE_iff] at h2
  rcases h2 with h2 | ⟨h2, -⟩
  · exact le_of_lt h2
  · exact le_of_eq h2.symm

/-! ## Claim C2 -/

/-- C2: for every store and options with a non-empty query and a limit in
`[1, 200]`, the returned count equals `min limit totalMatches`. -/
theorem returnedCount_eq_min (rf : Nat → Bool) (store : List Entity) (opts : SearchOptions)
    (hq : opts.query ≠ []) (h1 : 1 ≤ opts.limit) (h2 : opts.limit ≤ 200) :
    (searchNodes rf store opts).metadata.returnedCount =
      min opts.limit (searchNodes rf store opts).metadata.totalMatches := by
  unfold searchNodes
  by_cases ht : jsTrim opts.query = []
  · rw [if_pos ht]; simp
  · rw [if_neg ht]
    simp [List.length_take]

/-! ## Claim C5 -/

theorem jsTrim_of_all_ws {q : Str} (h : ∀ c ∈ q, jsWhitespace c = true) : jsTrim q = [] := by
  have h1 : q.dropWhile jsWhitespace = [] := List.dropWhile_eq_nil_iff.mpr h
  simp [jsTrim, h1]

/-- C5: a query that is empty or consists only of whitespace yields,
without any exception, an empty result list, a non-empty error message in
the metadata, and all-zero counts and scores. -/
theorem empty_query_response (rf : Nat → Bool) (store : List Entity) (opts : SearchOptions)
    (h : ∀ c ∈ opts.query, jsWhitespace c = true) :
    (searchNodes rf store opts).results = [] ∧
    (∃ msg : Str, (searchNodes rf store opts).metadata.error = some msg ∧ msg ≠ []) ∧
    (searchNodes rf store opts).metadata.totalMatches = 0 ∧
    (searchNodes rf store opts).metadata.returnedCount = 0 ∧
    (searchNodes rf store opts).metadata.topScore = 0 ∧
    (searchNodes rf store opts).metadata.averageScore = 0 := by
  have ht := jsTrim_of_all_ws h
  unfold searchNodes
  rw [if_pos ht]
  exact ⟨rfl, ⟨"Query cannot be empty".data, rfl, by decide⟩, rfl, rfl, rfl, rfl⟩

/-- C5, witness: the statement instantiated at a whitespace-only query. -/
theorem empty_query_response_witness :
    (∀ c ∈ optsC5.query, jsWhitespace c = true) ∧
    (searchNodes rfNone [] optsC5).results = [] ∧
    (∃ msg : Str, (searchNodes rfNone [] optsC5).metadata.error = some msg ∧ msg ≠ []) ∧
    (searchNodes rfNone [] optsC5).metadata.totalMatches = 0 ∧
    (searchNodes rfNone [] optsC5).metadata.returnedCount = 0 ∧
    (searchNodes rfNone [] optsC5).metadata.topScore = 0 ∧
    (searchNodes rfNone [] optsC5).metadata.averageScore = 0 :=
  ⟨by decide, empty_query_response rfNone [] optsC5 (by decide)⟩

/-- C2, witness: the invariant instantiated at the query "alpha" with the
default limit `50` on the empty store. -/
theorem returnedCount_eq_min_witness :
    optsC2.query ≠ [] ∧ 1 ≤ optsC2.limit ∧ optsC2.limit ≤ 200 ∧
    (searchNodes rfNone [] optsC2).metadata.returnedCount =
      min optsC2.limit (searchNodes rfNone [] optsC2).metadata.totalMatches :=
  ⟨by decide, by decide, by decide,
    returnedCount_eq_min rfNone [] optsC2 (by decide) (by decide) (by decide)⟩

/-- C3, witness: the index form of the sortedness statement instantiated
at a two-result search. -/
theorem results_sorted_witness :
    ((searchNodes rfNone storeC3 optsC3).results.get ⟨0 + 1, by decide⟩).meta.score ≤
      ((searchNodes rfNone storeC3 optsC3).results.get ⟨0, by decide⟩).meta.score :=
  (results_sorted rfNone storeC3 optsC3).2 0 (by decide)

/-! ## Lemmas about the exact pass and the scorer -/

theorem calculateRelevanceScore_matchType (rf : Nat → Bool) (e : Entity) (query : Str)
    (mt : MatchType) : (calculateRelevanceScore rf e query mt).matchType = mt := rfl

theorem mem_exactPass_matchType {rf : Nat → Bool} {entities : List Entity} {queryT : Str}
    {fields : List Field} {minScore : ℚ} {r : SearchResult}
    (h : r ∈ exactPass rf entities queryT fields minScore) :
    r.meta.matchType = MatchType.exact := by
  simp only [exactPass] at h
  rcases List.mem_filterMap.mp h with ⟨e, -, hfe⟩
  by_cases h1 : isSubstring (toLowerStr queryT)
      (toLowerStr (joinSpace (getSearchableFields e fields))) = true
  · rw [if_pos h1] at hfe
    by_cases h2 : minScore ≤ (calculateRelevanceScore rf e queryT MatchType.exact).score
    · rw [if_pos h2] at hfe
      obtain rfl :
          ({ entity := e, meta := calculateRelevanceScore rf e queryT MatchType.exact } :
            SearchResult) = r := Option.some.inj hfe
      exact calculateRelevanceScore_matchType rf e queryT MatchType.exact
    · rw [if_neg h2] at hfe
      exact absurd hfe (by simp)
  · rw [if_neg h1] at hfe
    exact absurd hfe (by simp)

/-! ## Claim C8 -/

/-- C8: when the exact pass already yields at least 5 results, the fuzzy
matcher is not invoked, so every returned result is an exact match. -/
theorem no_fuzzy_when_exact_ge_five (rf : Nat → Bool) (store : List Entity)
    (opts : SearchOptions)
    (h5 : 5 ≤ (exactPass rf store (truncateQuery opts.query) opts.fields opts.minScore).length) :
    ∀ r ∈ (searchNodes rf store opts).results, r.meta.matchType = MatchType.exact := by
  intro r hr
  unfold searchNodes at hr
  by_cases ht : jsTrim opts.query = []
  · rw [if_pos ht] at hr
    simp at hr
  · rw [if_neg ht] at hr
    have hr2 : r ∈ sortResults (mergedResults rf store opts) :=
      (List.take_sublist _ _).subset hr
    have hr3 : r ∈ mergedResults rf store opts := mem_sortResults.mp hr2
    have hcond : ¬ (opts.fuzzy = true ∧
        (exactPass rf store (truncateQuery opts.query) opts.fields opts.minScore).length < 5) := by
      rintro ⟨-, hlt⟩
      omega
    simp only [mergedResults] at hr3
    rw [if_neg hcond] at hr3
    exact mem_exactPass_matchType hr3

/-- C8, witness: five exact matches on the query "t" and a search whose
returned results are all exact. -/
theorem no_fuzzy_when_exact_ge_five_witness :
    5 ≤ (exactPass rfNone storeC8 (truncateQuery optsC8.query) optsC8.fields
      optsC8.minScore).length ∧
    ∀ r ∈ (searchNodes rfNone storeC8 optsC8).results, r.meta.matchType = MatchType.exact :=
  ⟨by decide, no_fuzzy_when_exact_ge_five rfNone storeC8 optsC8 (by decide)⟩

/-! ## Claim C1 -/

/-- C1, amended: `fuzzyUsed` is true iff fuzzy matching is enabled and at
least one result of the merged pre-truncation working set has
`matchType = fuzzy`; the source computes it over the pre-truncation list,
not over the returned slice. -/
theorem fuzzyUsed_iff_merged_fuzzy (rf : Nat → Bool) (store : List Entity)
    (opts : SearchOptions) (hq : jsTrim opts.query ≠ []) :
    (searchNodes rf store opts).metadata.fuzzyUsed = true ↔
      (opts.fuzzy = true ∧
        ∃ r ∈ mergedResults rf store opts, r.meta.matchType = MatchType.fuzzy) := by
  unfold searchNodes
  rw [if_neg hq]
  simp only [Bool.and_eq_true, List.any_eq_true, beq_iff_eq]
  constructor
  · rintro ⟨hf, r, hr, hm⟩
    exact ⟨hf, r, mem_sortResults.mp hr, hm⟩
  · rintro ⟨hf, r, hr, hm⟩
    exact ⟨hf, r, mem_sortResults.mpr hr, hm⟩

/-- C1, witness: the amended equivalence instantiated at the two-entity
store of the counterexample. -/
theorem fuzzyUsed_iff_merged_fuzzy_witness :
    jsTrim optsC1.query ≠ [] ∧
    ((searchNodes rfNone [entA, entB] optsC1).metadata.fuzzyUsed = true ↔
      (optsC1.fuzzy = true ∧
        ∃ r ∈ mergedResults rfNone [entA, entB] optsC1,
          r.meta.matchType = MatchType.fuzzy)) :=
  ⟨by decide, fuzzyUsed_iff_merged_fuzzy rfNone [entA, entB] optsC1 (by decide)⟩

/-- C1, counterexample: on the store `[entA, entB]` with query "alpha" and
`limit 1`, the exact match on `entA` is the only returned result, yet the
fuzzy match on `entB` sits in the pre-truncation list, so
`metadata.fuzzyUsed` is `true` while no returned result has
`matchType = fuzzy` — the claimed equivalence with the post-truncation
results fails. -/
theorem fuzzyUsed_posttruncation_cex :
    (searchNodes rfNone [entA, entB] optsC1).metadata.fuzzyUsed = true ∧
    ∀ r ∈ (searchNodes rfNone [entA, entB] optsC1).results,
      r.meta.matchType ≠ MatchType.fuzzy := by
  have hq : optsC1.query = qA := rfl
  have hfl : optsC1.fields = allFields := rfl
  have hlim : optsC1.limit = 1 := rfl
  have hmin : optsC1.minScore = 0 := rfl
  have hfu : optsC1.fuzzy = true := rfl
  have hth : optsC1.fuzzyThreshold = 7/10 := rfl
  have ht1 : toLowerStr ['a','l','p','h','a'] = ['a','l','p','h','a'] := by decide
  have ht2 : toLowerStr ['t'] = ['t'] := by decide
  have ht3 : toLowerStr ['a','l','p','h','b'] = ['a','l','p','h','b'] := by decide
  have h0 : levenshteinDistance ['a','l','p','h','a'] ['a','l','p','h','a'] = 0 := by decide
  have h1 : levenshteinDistance ['a','l','p','h','a'] ['a','l','p','h','b'] = 1 := by decide
  have h2 : levenshteinDistance ['a','l','p','h','a'] ['t'] = 5 := by decide
  have hs1 : isSubstring ['a','l','p','h','a'] ['a','l','p','h','b'] = false := by decide
  have hs2 : isSubstring ['a','l','p','h','a'] ['t'] = false := by decide
  have hbA : bestSimilarity qA allFields entA = (1, some Field.name) := by
    norm_num [bestSimilarity, similarityRatioFn, ht1, ht2, h0, h2, entA, qA, allFields]
    all_goals decide
  have hbB : bestSimilarity qA allFields entB = (4/5, some Field.name) := by
    norm_num [bestSimilarity, similarityRatioFn, ht1, ht2, ht3, h1, h2, entB, qA, allFields]
    all_goals decide
  have hcA : calculateRelevanceScore rfNone entA qA MatchType.fuzzy =
      { score := 80, matchedFields := [Field.name]
        highlights := { hName := [qA], hEntityType := [], hObservations := [] }
        matchType := MatchType.fuzzy, fuzzyMatch := false, similarity := none
        bestField := none } := by
    norm_num [calculateRelevanceScore, obsLoop, ht1, ht2, hs2, entA, qA]
    all_goals decide
  have hcB : calculateRelevanceScore rfNone entB qA MatchType.fuzzy =
      { score := 0, matchedFields := []
        highlights := { hName := [], hEntityType := [], hObservations := [] }
        matchType := MatchType.fuzzy, fuzzyMatch := false, similarity := none
        bestField := none } := by
    norm_num [calculateRelevanceScore, obsLoop, ht1, ht2, ht3, hs1, hs2, entB, qA]
    all_goals decide
  have hfz : performFuzzySearch rfNone [entA, entB] qA allFields (7/10) = [resAf, resBf] := by
    norm_num [performFuzzySearch, List.filterMap_cons, hbA, hbB, hcA, hcB, resAf, resBf,
      metaAf, metaBf]
    all_goals decide
  have hex : exactPass rfNone [entA, entB] qA allFields 0 = [resA] := by decide
  have htq : truncateQuery qA = qA := by decide
  have hf1 : ([resA].find? fun r => r.entity.name = resAf.entity.name).isSome = true := by
    decide
  have hf2 : ([resA].find? fun r => r.entity.name = resBf.entity.name).isSome = false := by
    decide
  have hsc : (0:ℚ) ≤ resBf.meta.score := by decide
  have hmg : mergedResults rfNone [entA, entB] optsC1 = [resA, resBf] := by
    simp only [mergedResults, hq, hfl, hmin, hfu, hth, htq, hex, hfz, mergeFuzzy,
      List.foldl_cons, List.foldl_nil, List.length_cons, List.length_nil, hf1, hf2, hsc]
    norm_num
    all_goals decide
  have hsort : sortResults [resA, resBf] = [resA, resBf] := by
    norm_num [sortResults, insertR, resultLE, resA, resBf, metaA, metaBf]
    all_goals decide
  have htrim : jsTrim qA = qA := by decide
  have hqne : qA ≠ [] := by decide
  refine ⟨?_, ?_⟩ <;>
    norm_num [searchNodes, hq, hfl, hlim, hfu, htrim, hqne, hmg, hsort, resA, resBf,
      metaA, metaBf] <;>
    decide

/-! ## Claim C7 -/

theorem calculateRelevanceScore_fuzzy_score (rf : Nat → Bool) (e : Entity) (query : Str) :
    (calculateRelevanceScore rf e query MatchType.fuzzy).score =
      (calculateRelevanceScore rf e query MatchType.exact).score * (4/5) := rfl

/-- C7: every fuzzy-admitted result carries the score
`(max over the exact criteria) × 0.8 × bestSimilarity`: the criteria
maximum is taken first, then the flat fuzzy penalty and the similarity
multiplier are applied. -/
theorem fuzzy_score_formula (rf : Nat → Bool) (entities : List Entity) (query : Str)
    (fields : List Field) (threshold : ℚ) (r : SearchResult)
    (hr : r ∈ performFuzzySearch rf entities query fields threshold) :
    threshold ≤ (bestSimilarity query fields r.entity).1 ∧
    r.meta.score =
      (calculateRelevanceScore rf r.entity query MatchType.exact).score * (4/5) *
        (bestSimilarity query fields r.entity).1 := by
  simp only [performFuzzySearch] at hr
  rcases List.mem_filterMap.mp hr with ⟨e, -, hfe⟩
  by_cases hth : threshold ≤ (bestSimilarity query fields e).1
  · rw [if_pos hth] at hfe
    obtain rfl :
        ({ entity := e
           meta := { calculateRelevanceScore rf e query MatchType.fuzzy with
                     score := (calculateRelevanceScore rf e query MatchType.fuzzy).score *
                       (bestSimilarity query fields e).1
                     fuzzyMatch := true
                     similarity := some (bestSimilarity query fields e).1
                     bestField := (bestSimilarity query fields e).2 } } : SearchResult) = r :=
      Option.some.inj hfe
    exact ⟨hth, by rw [calculateRelevanceScore_fuzzy_score]⟩
  · rw [if_neg hth] at hfe
    exact absurd hfe (by simp)

theorem performFuzzySearch_entB_eval :
    performFuzzySearch rfNone [entB] qA allFields (7/10) = [resBf] := by
  have ht1 : toLowerStr ['a','l','p','h','a'] = ['a','l','p','h','a'] := by decide
  have ht2 : toLowerStr ['t'] = ['t'] := by decide
  have ht3 : toLowerStr ['a','l','p','h','b'] = ['a','l','p','h','b'] := by decide
  have h1 : levenshteinDistance ['a','l','p','h','a'] ['a','l','p','h','b'] = 1 := by decide
  have h2 : levenshteinDistance ['a','l','p','h','a'] ['t'] = 5 := by decide
  have hs1 : isSubstring ['a','l','p','h','a'] ['a','l','p','h','b'] = false := by decide
  have hs2 : isSubstring ['a','l','p','h','a'] ['t'] = false := by decide
  have hbB : bestSimilarity qA allFields entB = (4/5, some Field.name) := by
    norm_num [bestSimilarity, similarityRatioFn, ht1, ht2, ht3, h1, h2, entB, qA, allFields]
    all_goals decide
  have hcB : calculateRelevanceScore rfNone entB qA MatchType.fuzzy =
      { score := 0, matchedFields := []
        highlights := { hName := [], hEntityType := [], hObservations := [] }
        matchType := MatchType.fuzzy, fuzzyMatch := false, similarity := none
        bestField := none } := by
    norm_num [calculateRelevanceScore, obsLoop, ht1, ht2, ht3, hs1, hs2, entB, qA]
    all_goals decide
  norm_num [performFuzzySearch, List.filterMap_cons, hbB, hcB, resBf, metaBf]
  all_goals decide

/-- C7, witness: the formula instantiated at the fuzzy match of "alphb"
against the query "alpha". -/
theorem fuzzy_score_formula_witness :
    7/10 ≤ (bestSimilarity qA allFields resBf.entity).1 ∧
    resBf.meta.score =
      (calculateRelevanceScore rfNone resBf.entity qA MatchType.exact).score * (4/5) *
        (bestSimilarity qA allFields resBf.entity).1 :=
  fuzzy_score_formula rfNone [entB] qA allFields (7/10) resBf
    (by rw [performFuzzySearch_entB_eval]; exact List.mem_singleton.mpr rfl)

/-! ## Claim C6 -/

theorem isPrefixOf_self (l : Str) : l.isPrefixOf l = true := by
  induction l with
  | nil => rfl
  | cons a l ih => simp [List.isPrefixOf, ih]

theorem isSubstring_self (l : Str) : isSubstring l l = true := by
  cases l with
  | nil => rfl
  | cons a s => simp [isSubstring, isPrefixOf_self]

theorem obsLoop_allfail {rf : Nat → Bool} (qL : Str) (hrf : ∀ j, rf j = true) :
    ∀ (l : List Str) (i found : Nat) (score : ℚ) (idxs : List Nat),
      (obsLoop rf qL i found score idxs l).1 = score ∨
      (obsLoop rf qL i found score idxs l).1 = max score 20 := by
  intro l
  induction l with
  | nil =>
    intro i found score idxs
    left
    rfl
  | cons o rest ih =>
    intro i found score idxs
    simp only [obsLoop]
    by_cases h5 : 5 ≤ found
    · rw [if_pos h5]
      left
      rfl
    · rw [if_neg h5]
      by_cases hm : isSubstring qL (toLowerStr o) = true
      · rw [if_pos hm, hrf i, if_pos rfl]
        rcases ih (i + 1) (found + 1) (max score 20) (idxs ++ [i]) with h | h
        · right; rw [h]
        · right; rw [h, max_assoc, max_self]
      · rw [if_neg hm]
        exact ih (i + 1) found score idxs

/-- C6, counterexample: with the regex failing on the single matching
observation, the scorer's `catch` branch contributes `20`, not the
`20 + min(30, 1 × 10) = 30` the claim asserts for a degraded literal
substring count of `1`. -/
theorem regex_failure_score_cex :
    (calculateRelevanceScore rfAll entC6 ['q'] MatchType.exact).score = 20 ∧
    (calculateRelevanceScore rfAll entC6 ['q'] MatchType.exact).score ≠ 30 := by
  decide

/-- C6, amended: whenever regex construction or matching fails for an
observation that contains the query (and neither the name nor the type
criterion fires), the scorer degrades that observation's contribution to
the flat score `20` — as if the substring count were `0` in the
`20 + min(30, count × 10)` formula — and, the model being a total
function, no error propagates to the caller. -/
theorem regex_failure_degrades (rf : Nat → Bool) (q nm ty o : Str) (rest : List Str)
    (hrf : ∀ j, rf j = true)
    (hnm : isSubstring (toLowerStr q) (toLowerStr nm) = false)
    (hty : isSubstring (toLowerStr q) (toLowerStr ty) = false)
    (ho : isSubstring (toLowerStr q) (toLowerStr o) = true) :
    (calculateRelevanceScore rf { name := nm, entityType := ty, observations := o :: rest } q
      MatchType.exact).score = 20 := by
  have hne : ¬ (toLowerStr nm = toLowerStr q) := by
    intro he
    rw [he, isSubstring_self] at hnm
    exact Bool.noConfusion hnm
  have hte : ¬ (toLowerStr ty = toLowerStr q) := by
    intro he
    rw [he, isSubstring_self] at hty
    exact Bool.noConfusion hty
  have htake : List.take 100 (o :: rest) = o :: List.take 99 rest := rfl
  have h20 : max (0:ℚ) 20 = 20 := by norm_num
  simp only [calculateRelevanceScore, hne, hte, hnm, hty, Bool.false_eq_true, if_false,
    htake, obsLoop, ho, hrf 0, if_true, ite_true, List.nil_append, h20]
  rw [if_neg (by decide : ¬ (MatchType.exact = MatchType.fuzzy))]
  rcases obsLoop_allfail (toLowerStr q) hrf (List.take 99 rest) (0 + 1) (0 + 1) 20 [0]
    with h | h
  · simp [h]
  · simp [h]

/-- C6, witness: the amended statement instantiated at the query "q"
against an entity whose only observation is "q". -/
theorem regex_failure_degrades_witness :
    (∀ j : Nat, rfAll j = true) ∧
    isSubstring (toLowerStr ['q']) (toLowerStr ['x']) = false ∧
    isSubstring (toLowerStr ['q']) (toLowerStr ['t']) = false ∧
    isSubstring (toLowerStr ['q']) (toLowerStr ['q']) = true ∧
    (calculateRelevanceScore rfAll
      { name := ['x'], entityType := ['t'], observations := [['q']] } ['q']
      MatchType.exact).score = 20 :=
  ⟨fun _ => rfl, by decide, by decide, by decide,
    regex_failure_degrades rfAll ['q'] ['x'] ['t'] ['q'] [] (fun _ => rfl)
      (by decide) (by decide) (by decide)⟩

/-! ## Claim C10 -/

/-- C10: the scorer evaluates the name criterion even when `fields` is
restricted to `entityType` only: searching "alpha" over the single-field
option set returns a result whose `matchedFields` contains `name` and
whose score `100` comes from the name-equality criterion (the type
criteria alone would give at most `85`). -/
theorem scorer_ignores_fields_option :
    ∃ r ∈ (searchNodes rfNone [entC10] optsC10).results,
      Field.name ∈ r.meta.matchedFields ∧ r.meta.score = 100 := by
  have hq : optsC10.query = qA := rfl
  have hfl : optsC10.fields = [Field.entityType] := rfl
  have hlim : optsC10.limit = 50 := rfl
  have hmin : optsC10.minScore = 0 := rfl
  have hfu : optsC10.fuzzy = true := rfl
  have hth : optsC10.fuzzyThreshold = 7/10 := rfl
  have ht1 : toLowerStr ['a','l','p','h','a'] = ['a','l','p','h','a'] := by decide
  have ht4 : toLowerStr ['x','x','x','a','l','p','h','a'] =
      ['x','x','x','a','l','p','h','a'] := by decide
  have hlev3 : levenshteinDistance ['a','l','p','h','a'] ['x','x','x','a','l','p','h','a'] = 3 := by
    decide
  have hfne : ¬ (Field.name = Field.entityType) := by decide
  have hb : bestSimilarity qA [Field.entityType] entC10 = (5/8, some Field.entityType) := by
    norm_num [bestSimilarity, similarityRatioFn, hfne, ht1, ht4, hlev3, entC10, qA]
    all_goals decide
  have hfz : performFuzzySearch rfNone [entC10] qA [Field.entityType] (7/10) = [] := by
    norm_num [performFuzzySearch, List.filterMap_cons, List.filterMap_nil, hb]
  have hex : exactPass rfNone [entC10] qA [Field.entityType] 0 = [resC10] := by decide
  have htq : truncateQuery qA = qA := by decide
  have hmg : mergedResults rfNone [entC10] optsC10 = [resC10] := by
    simp only [mergedResults, hq, hfl, hmin, hfu, hth, htq, hex, hfz, mergeFuzzy,
      List.foldl_nil, List.length_cons, List.length_nil]
    norm_num
  have hsort : sortResults [resC10] = [resC10] := by decide
  have htrim : jsTrim qA = qA := by decide
  have hqne : qA ≠ [] := by decide
  refine ⟨resC10, ?_, by decide, by decide⟩
  norm_num [searchNodes, hq, hfl, hlim, hfu, htrim, hqne, hmg, hsort]

end MemorySearch
